import Mathlib

/-!
Verification development for the PitchScore mock scoring engine
(src/pitch_score_web_app_mvp_react.jsx). The engine is shallowly embedded:
JS strings become lists of characters, JS numbers become exact rationals
(with the real numbers used only for the tanh-based terms), and the
stateful bits of the page are irrelevant to the engine, which is a pure
function of its request.
-/

set_option maxHeartbeats 1000000
set_option maxRecDepth 8000

namespace PitchScore

/-- JS strings are sequences of UTF-16 code units; every character in this
program is in the basic multilingual plane, so a list of characters is a
faithful model. -/
abbrev Str := List Char

/-! ## A stable comparator sort, modelling Array.prototype.sort

JS Array.prototype.sort with a comparator is required to be stable; the
output of a stable sort is uniquely determined by the comparator and the
input order, so any stable sort is a faithful model.  We use insertion
sort from the right: an element is placed before the first already-sorted
element it compares less-or-equal to. -/

def oInsert (le : α → α → Bool) (a : α) : List α → List α
  | [] => [a]
  | b :: l => if le a b then a :: b :: l else b :: oInsert le a l

def stableSort (le : α → α → Bool) : List α → List α
  | [] => []
  | a :: l => oInsert le a (stableSort le l)

theorem oInsert_perm (le : α → α → Bool) (a : α) (l : List α) :
    (oInsert le a l).Perm (a :: l) := by
  induction l with
  | nil => simp [oInsert]
  | cons b t ih =>
    by_cases h : le a b
    · simp [oInsert, h]
    · simp only [oInsert, h, Bool.false_eq_true, if_false]
      exact (ih.cons b).trans (List.Perm.swap a b t)

theorem stableSort_perm (le : α → α → Bool) (l : List α) :
    (stableSort le l).Perm l := by
  induction l with
  | nil => simp [stableSort]
  | cons a t ih =>
    exact (oInsert_perm le a (stableSort le t)).trans (ih.cons a)

theorem mem_stableSort (le : α → α → Bool) (l : List α) (x : α) :
    x ∈ stableSort le l ↔ x ∈ l :=
  (stableSort_perm le l).mem_iff

theorem length_stableSort (le : α → α → Bool) (l : List α) :
    (stableSort le l).length = l.length :=
  (stableSort_perm le l).length_eq

/-- Key invariant of stable sorting: the output is ordered by the
comparator, and whenever two elements also compare back (a tie), they keep
any relation `P` that held pairwise over the input order. -/
theorem pairwise_oInsert (le : α → α → Bool) (P : α → α → Prop)
    (hTot : ∀ x y, le x y = true ∨ le y x = true)
    (hTr : ∀ x y z, le x y = true → le y z = true → le x z = true)
    (a : α) (l : List α)
    (ha : ∀ y ∈ l, P a y)
    (hl : l.Pairwise (fun x y => le x y = true ∧ (le y x = true → P x y))) :
    (oInsert le a l).Pairwise (fun x y => le x y = true ∧ (le y x = true → P x y)) := by
  induction l with
  | nil => simp [oInsert]
  | cons b t ih =>
    rcases List.pairwise_cons.mp hl with ⟨hb, ht⟩
    by_cases h : le a b
    · simp only [oInsert, h, if_true]
      refine List.pairwise_cons.mpr ⟨?_, hl⟩
      intro y hy
      rcases List.mem_cons.mp hy with rfl | hyt
      · exact ⟨h, fun _ => ha y (List.mem_cons_self _ _)⟩
      · exact ⟨hTr a b y h (hb y hyt).1, fun _ => ha y (List.mem_cons_of_mem _ hyt)⟩
    · have hba : le b a = true := (hTot a b).resolve_left h
      simp only [oInsert, h, Bool.false_eq_true, if_false]
      refine List.pairwise_cons.mpr ⟨?_, ?_⟩
      · intro y hy
        rcases List.mem_cons.mp ((oInsert_perm le a t).mem_iff.mp hy) with h1 | h2
        · subst h1
          exact ⟨hba, fun hab => absurd hab h⟩
        · exact hb y h2
      · exact ih (fun y hy => ha y (List.mem_cons_of_mem _ hy)) ht

theorem pairwise_stableSort (le : α → α → Bool) (P : α → α → Prop)
    (hTot : ∀ x y, le x y = true ∨ le y x = true)
    (hTr : ∀ x y z, le x y = true → le y z = true → le x z = true)
    (l : List α) (hl : l.Pairwise P) :
    (stableSort le l).Pairwise (fun x y => le x y = true ∧ (le y x = true → P x y)) := by
  induction l with
  | nil => simp [stableSort]
  | cons a t ih =>
    rcases List.pairwise_cons.mp hl with ⟨ha, ht⟩
    exact pairwise_oInsert le P hTot hTr a (stableSort le t)
      (fun y hy => ha y ((stableSort_perm le t).mem_iff.mp hy)) (ih ht)

theorem pairwise_trivial (l : List α) : l.Pairwise (fun _ _ => True) := by
  induction l with
  | nil => exact List.Pairwise.nil
  | cons a t ih => exact List.pairwise_cons.mpr ⟨fun _ _ => trivial, ih⟩

/-- Sortedness alone: the stable sort is ordered by any total transitive
boolean comparator. -/
theorem sorted_stableSort (le : α → α → Bool)
    (hTot : ∀ x y, le x y = true ∨ le y x = true)
    (hTr : ∀ x y z, le x y = true → le y z = true → le x z = true)
    (l : List α) :
    (stableSort le l).Pairwise (fun x y => le x y = true) :=
  (pairwise_stableSort le (fun _ _ => True) hTot hTr l (pairwise_trivial l)).imp
    (fun h => h.1)

/-! ## Regex alternation matching

Every regex in the source is a plain alternation of literal substrings
with flags g and i:  String.prototype.match scans left to right, at each
position tries the alternatives in written order, counts non-overlapping
matches, and with flag i compares characters up to case canonicalization.
We model flag i by case-folding the text (the patterns are already lower
case). -/

def countAux (pats : List Str) : ℕ → Str → ℕ
  | _, [] => 0
  | Nat.succ skip, _ :: rest => countAux pats skip rest
  | 0, c :: rest =>
    match pats.find? (fun p => p.isPrefixOf (c :: rest)) with
    | some p => 1 + countAux pats (p.length - 1) rest
    | none => countAux pats 0 rest

def countMatches (pats : List Str) (t : Str) : ℕ := countAux pats 0 t

/-- Case canonicalization used by flag i, restricted to the characters
this program can meet: ASCII letters and the accented Spanish capitals. -/
def jsLower (c : Char) : Char :=
  if 'A' ≤ c ∧ c ≤ 'Z' then Char.ofNat (c.toNat + 32)
  else if c = 'Á' then 'á'
  else if c = 'É' then 'é'
  else if c = 'Í' then 'í'
  else if c = 'Ó' then 'ó'
  else if c = 'Ú' then 'ú'
  else if c = 'Ñ' then 'ñ'
  else if c = 'Ü' then 'ü'
  else c

def lowerStr (s : Str) : Str := s.map jsLower

/-- regex.test: at least one match exists. -/
def jsTest (pats : List Str) (t : Str) : Bool :=
  decide (0 < countMatches pats (lowerStr t))

/-! ## The keyword table and category inference (pickGenresFromText) -/

def gSciFi : Str := ("Sci‑Fi").data
def gThriller : Str := ("Thriller").data
def gComedia : Str := ("Comedia").data
def gRomance : Str := ("Romance").data
def gFantasia : Str := ("Fantasia").data
def gTerror : Str := ("Terror").data
def gAccion : Str := ("Acción").data
def gAventura : Str := ("Aventura").data
def gAnimacion : Str := ("Animación").data
def gDrama : Str := ("Drama").data

def KEYMAP : List (List Str × Str) :=
  [ ([("space").data, ("nave").data, ("planeta").data, ("robot").data, ("ia").data,
      ("inteligencia artificial").data, ("futuro").data, ("alien").data], gSciFi),
    ([("crimen").data, ("asesin").data, ("investigaci").data, ("misterio").data,
      ("conspiraci").data, ("persecuci").data], gThriller),
    ([("risa").data, ("chiste").data, ("comedia").data, ("humor").data, ("torpe").data,
      ("situaci").data], gComedia),
    ([("amor").data, ("relaci").data, ("pareja").data, ("romance").data, ("coraz").data],
      gRomance),
    ([("magia").data, ("reino").data, ("hechic").data, ("drag").data, ("fantas").data],
      gFantasia),
    ([("miedo").data, ("fantasma").data, ("demon").data, ("pose").data, ("slasher").data,
      ("terror").data], gTerror),
    ([("batalla").data, ("guerra").data, ("rebel").data, ("conflicto").data,
      ("misión").data, ("acción").data], gAccion),
    ([("viaje").data, ("búsqueda").data, ("tesoro").data, ("aventur").data], gAventura),
    ([("animaci").data, ("dibujo").data, ("stop motion").data], gAnimacion),
    ([("drama").data, ("familia").data, ("superar").data, ("enfermedad").data,
      ("duelo").data], gDrama) ]

/-- JS Map.set(g, (get(g) or 0) + c): update in place keeping the original
insertion position, append a fresh key at the end. -/
def upsert (g : Str) (c : ℕ) : List (Str × ℕ) → List (Str × ℕ)
  | [] => [(g, c)]
  | p :: t => if p.1 = g then (p.1, p.2 + c) :: t else p :: upsert g c t

/-- The Map built by pickGenresFromText, in insertion order, over the
already case-folded text. -/
def pickEntriesL (lt : Str) : List (Str × ℕ) :=
  KEYMAP.foldl
    (fun acc e =>
      if 0 < countMatches e.1 lt then upsert e.2 (countMatches e.1 lt) acc else acc) []

def pickGenresFromText (t : Str) : List Str :=
  (stableSort (fun a b => decide (b.2 ≤ a.2)) (pickEntriesL (lowerStr t))).map Prod.fst

/-! ## hashScore and the request/response shapes -/

/-- Computes h = (h * 31 + charCode) >>> 0 over the characters; >>> 0
keeps the value in 32 bits (the intermediate product stays below 2^53, so
the JS float arithmetic is exact). -/
def hashScore (s : Str) : ℕ :=
  s.foldl (fun h c => (h * 31 + c.toNat) % 4294967296) 0

structure Options where
  genres : List Str
  tone : Option Str
  rating : Str
  budget_hint_usd : Option ℚ
deriving DecidableEq

structure Driver where
  feature : Str
  impact : ℚ
deriving DecidableEq

structure Movie where
  title : Str
  year : ℕ
  roi : Option ℚ
deriving DecidableEq

structure NearMovie where
  title : Str
  year : ℕ
  roi : Option ℚ
  similarity : ℚ
deriving DecidableEq

structure Radar where
  originality : ℚ
  clarity : ℚ
  audience_appeal : ℚ
  budget_feasibility : ℚ
  production_risk : ℚ

structure ScoreResponse where
  p_success : ℝ
  radar : Radar
  drivers : List Driver
  nearest_movies : List NearMovie
  genreGuess : List Str

def quoteStr (s : Str) : Str := '"' :: (s ++ ['"'])

/-- Serialization of a JS number.  The labels and ratings hashed by this
program are plain strings; a budget hint is a number.  JSON.stringify
prints the IEEE double in decimal; we print the exact rational (identical
for the integral values the form produces).  No claim depends on the
encoding of a non-integral budget, only on the serialization being a
deterministic function of the value. -/
def ratChars (q : ℚ) : Str :=
  ((toString q.num).data) ++ (if q.den = 1 then [] else '/' :: ((toString q.den).data))

/-- JSON.stringify of the options object built in handleSubmit, with its
literal key order genres, tone, rating, budget_hint_usd; fields holding
undefined are omitted.  The labels contain no characters JSON escapes. -/
def stringifyOptions (o : Options) : Str :=
  [Char.ofNat 123] ++ (("\"genres\":[").data)
    ++ List.intercalate ([',']) (o.genres.map quoteStr) ++ [']']
    ++ (match o.tone with
        | none => []
        | some t => ((",\"tone\":").data) ++ quoteStr t)
    ++ ((",\"rating\":").data) ++ quoteStr o.rating
    ++ (match o.budget_hint_usd with
        | none => []
        | some q => ((",\"budget_hint_usd\":").data) ++ ratChars q)
    ++ [Char.ofNat 125]

/-! ## The score derivation (mockScoreRequest), line by line -/

def hVal (p : Str) (o : Options) : ℕ := hashScore (p ++ stringifyOptions o)

def genresEff (p : Str) (o : Options) : List Str :=
  if o.genres ≠ [] then o.genres
  else if pickGenresFromText p ≠ [] then (pickGenresFromText p).take 2
  else [gDrama]

/-- The per-genre prior table; an absent key contributes 0 (so does the
0.00 entry for Terror, which JS also routes through the falsy-or). -/
def genreAdjTable (g : Str) : ℚ :=
  if g = gComedia then 0.03
  else if g = gSciFi then 0.02
  else if g = gTerror then 0
  else if g = gDrama then -0.01
  else if g = gRomance then -0.02
  else if g = gThriller then 0.01
  else if g = gAccion then 0.01
  else 0

def genreAdj (p : Str) (o : Options) : ℚ :=
  (genresEff p o).foldl (fun acc g => acc + genreAdjTable g) 0

def epicPats : List Str :=
  [("space").data, ("batalla").data, ("drag").data, ("epic").data, ("guerra").data]

def resolvedBudget (p : Str) (o : Options) : ℚ :=
  (o.budget_hint_usd).getD (if jsTest epicPats p then 40000000 else 8000000)

def budgetPeer (p : Str) (o : Options) : ℚ :=
  if (genresEff p o).contains gSciFi || (genresEff p o).contains gAccion
      || (genresEff p o).contains gFantasia then 30000000
  else 8000000

def budgetFeasibility (p : Str) (o : Options) : ℚ :=
  max 0 (min 1 (1 - |resolvedBudget p o - budgetPeer p o| / max 1 (budgetPeer p o * 2)))

/-- ToInt32: the operand of the signed shift is coerced to a 32-bit
signed integer, so a hash at or above 2^31 becomes negative. -/
def toInt32 (h : ℕ) : ℤ :=
  if h < 2147483648 then (h : ℤ) else (h : ℤ) - 4294967296

/-- The JS signed right shift h >> k: an arithmetic shift of ToInt32(h),
which is floor division by 2^k (also for negative values). -/
def shr (h : ℕ) (k : ℕ) : ℤ := Int.fdiv (toInt32 h) (2 ^ k)

/-- The JS remainder a % m: truncating remainder, carrying the sign of
the dividend — negative for a negative shifted hash. -/
def jsMod (a : ℤ) (m : ℕ) : ℤ := Int.tmod a m

def originality (p : Str) (o : Options) : ℚ :=
  max 0 (min 1 ((((hVal p o) % 100 : ℕ) : ℚ) / 100 * 0.6
    + (if 2 ≤ ((genresEff p o).dedup).length then 0.2 else 0.05)))

def clarity (p : Str) (o : Options) : ℚ :=
  max 0 (min 1 (0.5 + ((jsMod (shr (hVal p o) 5) 50 : ℤ) : ℚ) / 150))

def audience (p : Str) (o : Options) : ℚ :=
  max 0 (min 1 (0.4
    + (if (genresEff p o).contains gComedia || (genresEff p o).contains gTerror
        then 0.1 else 0)
    + ((jsMod (shr (hVal p o) 7) 30 : ℤ) : ℚ) / 200))

def productionRisk (p : Str) (o : Options) : ℚ :=
  max 0 (1 - budgetFeasibility p o * 0.7 - ((jsMod (shr (hVal p o) 9) 20 : ℤ) : ℚ) / 100)

noncomputable def base (len : ℕ) : ℝ :=
  min (0.4 + (Real.tanh (((len : ℝ) - 400) / 600) + 1) * 0.25) 0.95

noncomputable def p_success (p : Str) (o : Options) : ℝ :=
  max 0.05 (min 0.95 (base p.length + (genreAdj p o : ℝ)
    + ((originality p o : ℝ) - 0.5) * 0.15
    + ((audience p o : ℝ) - 0.5) * 0.12
    + ((budgetFeasibility p o : ℝ) - 0.5) * 0.18
    - ((productionRisk p o : ℝ) - 0.5) * 0.15))

/-- Number.prototype.toFixed(f) followed by the unary plus: the nearest
multiple of 10^-f, ties resolved to the larger value. -/
def toFixedQ (f : ℕ) (q : ℚ) : ℚ :=
  ((⌊q * (10 : ℚ) ^ f + 1/2⌋ : ℤ) : ℚ) / (10 : ℚ) ^ f

def driversPre (p : Str) (o : Options) : List Driver :=
  [⟨List.intercalate (['+']) (genresEff p o), toFixedQ 3 (genreAdj p o)⟩,
   ⟨("originality_index").data, toFixedQ 3 ((originality p o - 0.5) * 0.15)⟩,
   ⟨("audience_appeal").data, toFixedQ 3 ((audience p o - 0.5) * 0.12)⟩,
   ⟨("budget_vs_peers").data, toFixedQ 3 ((budgetFeasibility p o - 0.5) * 0.18)⟩,
   ⟨("production_risk").data, -(toFixedQ 3 ((productionRisk p o - 0.5) * 0.15))⟩]

def drivers (p : Str) (o : Options) : List Driver :=
  stableSort (fun a b => decide (|b.impact| ≤ |a.impact|)) (driversPre p o)

def pool : List Movie :=
  [⟨("Ex Machina").data, 2014, some 3.7⟩,
   ⟨("Annihilation").data, 2018, some 1.4⟩,
   ⟨("Get Out").data, 2017, some 7.1⟩,
   ⟨("A Quiet Place").data, 2018, some 5.4⟩,
   ⟨("Her").data, 2013, some 2.9⟩,
   ⟨("Crazy Rich Asians").data, 2018, some 7.3⟩,
   ⟨("Parasite").data, 2019, some 20.0⟩,
   ⟨("Knives Out").data, 2019, some 4.2⟩,
   ⟨("Mad Max: Fury Road").data, 2015, some 2.7⟩,
   ⟨("The Conjuring").data, 2013, some 13.3⟩]

def simVal (h : ℕ) (i : ℕ) : ℚ :=
  toFixedQ 2 (0.6 + ((jsMod (shr h (i + 1)) 35 : ℤ) : ℚ) / 100)

def simsPre (p : Str) (o : Options) : List NearMovie :=
  (pool.enum).map (fun e => ⟨e.2.title, e.2.year, e.2.roi, simVal (hVal p o) e.1⟩)

def sims (p : Str) (o : Options) : List NearMovie :=
  (stableSort (fun a b => decide (b.similarity ≤ a.similarity)) (simsPre p o)).take 5

noncomputable def mockScoreRequest (p : Str) (o : Options) : ScoreResponse :=
  ⟨p_success p o,
   ⟨originality p o, clarity p o, audience p o, budgetFeasibility p o, productionRisk p o⟩,
   drivers p o, sims p o, genresEff p o⟩

/-- handleSubmit: budget ? Number(budget) : undefined.  The empty string
is the only falsy string, so a blank field is coerced to an absent hint;
`v` stands for the value Number would parse from the non-blank field. -/
def submitBudget (s : Str) (v : ℚ) : Option ℚ :=
  if s = [] then none else some v

/-! ## Concrete requests used by the scenario claims -/

/-- The §8 scenario request: empty text, no genres, rating PG-13, no
budget hint, no tone. -/
def oScenario : Options := ⟨[], none, ("PG-13").data, none⟩

/-- The same request with a negative budget hint. -/
def oNegBudget : Options := ⟨[], none, ("PG-13").data, some (-5)⟩

/-- The same request with a large budget hint far from the peer budget:
budget feasibility drops to 0 and the signed hash slice of this request
is negative, pushing production risk above 1. -/
def oBigBudget : Options := ⟨[], none, ("PG-13").data, some 25000000⟩

/-! ## Bounds helpers -/

theorem clamp01_nonneg (q : ℚ) : 0 ≤ max 0 (min 1 q) := le_max_left _ _

theorem clamp01_le_one (q : ℚ) : max 0 (min 1 q) ≤ 1 :=
  max_le (by norm_num) (min_le_left _ _)

theorem originality_nonneg (p : Str) (o : Options) : 0 ≤ originality p o :=
  clamp01_nonneg _

theorem originality_le_one (p : Str) (o : Options) : originality p o ≤ 1 :=
  clamp01_le_one _

theorem clarity_nonneg (p : Str) (o : Options) : 0 ≤ clarity p o :=
  clamp01_nonneg _

theorem clarity_le_one (p : Str) (o : Options) : clarity p o ≤ 1 :=
  clamp01_le_one _

theorem audience_nonneg (p : Str) (o : Options) : 0 ≤ audience p o :=
  clamp01_nonneg _

theorem audience_le_one (p : Str) (o : Options) : audience p o ≤ 1 :=
  clamp01_le_one _

theorem budgetFeasibility_nonneg (p : Str) (o : Options) : 0 ≤ budgetFeasibility p o :=
  clamp01_nonneg _

theorem budgetFeasibility_le_one (p : Str) (o : Options) : budgetFeasibility p o ≤ 1 :=
  clamp01_le_one _

theorem productionRisk_nonneg (p : Str) (o : Options) : 0 ≤ productionRisk p o :=
  le_max_left _ _

/-- The truncating remainder of the signed shift lies strictly between
-m and m. -/
theorem jsMod_bounds (a : ℤ) (m : ℕ) (hm : 0 < m) :
    -(m : ℤ) < jsMod a m ∧ jsMod a m < m := by
  unfold jsMod
  rcases a with n | n
  · have he : Int.tmod (Int.ofNat n) ((m : ℕ) : ℤ) = ((n % m : ℕ) : ℤ) := rfl
    rw [he]
    have h2 : n % m < m := Nat.mod_lt _ hm
    omega
  · have he : Int.tmod (Int.negSucc n) ((m : ℕ) : ℤ) = -(((n + 1) % m : ℕ) : ℤ) := rfl
    rw [he]
    have h2 : (n + 1) % m < m := Nat.mod_lt _ hm
    omega

/-- productionRisk has no upper clamp in the code; the signed hash slice
can subtract as much as -0.19, so 1.19 is the only provable upper
bound (and values above 1 do occur). -/
theorem productionRisk_le (p : Str) (o : Options) : productionRisk p o ≤ 119/100 := by
  unfold productionRisk
  apply max_le
  · norm_num
  · have h1 : 0 ≤ budgetFeasibility p o := budgetFeasibility_nonneg p o
    have hb := jsMod_bounds (shr (hVal p o) 9) 20 (by norm_num)
    have h2 : (-19 : ℤ) ≤ jsMod (shr (hVal p o) 9) 20 := by omega
    have h3 : (-19 : ℚ) ≤ ((jsMod (shr (hVal p o) 9) 20 : ℤ) : ℚ) := by exact_mod_cast h2
    linarith

theorem p_success_ge (p : Str) (o : Options) : 0.05 ≤ p_success p o := by
  unfold p_success
  exact le_max_left _ _

theorem p_success_le (p : Str) (o : Options) : p_success p o ≤ 0.95 := by
  unfold p_success
  exact max_le (by norm_num) (min_le_left _ _)

theorem simVal_eq (h i : ℕ) :
    simVal h i = (((60 + jsMod (shr h (i + 1)) 35 : ℤ) : ℚ)) / 100 := by
  unfold simVal toFixedQ
  set s : ℤ := jsMod (shr h (i + 1)) 35 with hsdef
  have harg : (0.6 + ((s : ℤ) : ℚ) / 100) * (10 : ℚ) ^ (2 : ℕ) + 1/2
      = (60 : ℚ) + (s : ℚ) + 1/2 := by
    ring
  rw [harg]
  have hfl : (⌊(60 : ℚ) + (s : ℚ) + 1/2⌋ : ℤ) = 60 + s := by
    rw [Int.floor_eq_iff]
    constructor
    · push_cast
      linarith
    · push_cast
      linarith
  rw [hfl]
  push_cast
  norm_num

theorem simVal_bounds (h i : ℕ) : 13/50 ≤ simVal h i ∧ simVal h i ≤ 19/20 := by
  rw [simVal_eq]
  have hb := jsMod_bounds (shr h (i + 1)) 35 (by norm_num)
  have h1 : (-34 : ℤ) ≤ jsMod (shr h (i + 1)) 35 := by omega
  have h2 : jsMod (shr h (i + 1)) 35 ≤ 34 := by omega
  have hq1 : (-34 : ℚ) ≤ ((jsMod (shr h (i + 1)) 35 : ℤ) : ℚ) := by exact_mod_cast h1
  have hq2 : ((jsMod (shr h (i + 1)) 35 : ℤ) : ℚ) ≤ 34 := by exact_mod_cast h2
  constructor
  · rw [le_div_iff₀ (by norm_num : (0:ℚ) < 100)]
    push_cast
    linarith
  · rw [div_le_iff₀ (by norm_num : (0:ℚ) < 100)]
    push_cast
    linarith

theorem sims_similarity_bounds (p : Str) (o : Options) :
    (sims p o).Forall (fun e => 13/50 ≤ e.similarity ∧ e.similarity ≤ 19/20) := by
  rw [List.forall_iff_forall_mem]
  intro e he
  unfold sims at he
  have h1 := List.mem_of_mem_take he
  have h2 := (mem_stableSort _ _ _).mp h1
  unfold simsPre at h2
  rcases List.mem_map.mp h2 with ⟨x, _, rfl⟩
  exact simVal_bounds _ _

/-- The numeric bounds the code actually guarantees, shared by the claims
that mention them.  production_risk has no upper clamp in the code and
the signed slice can push it above 1; similarities reach down to 0.26. -/
theorem response_bounds (p : Str) (o : Options) :
    (0.05 ≤ (mockScoreRequest p o).p_success ∧ (mockScoreRequest p o).p_success ≤ 0.95)
    ∧ (0 ≤ (mockScoreRequest p o).radar.originality
        ∧ (mockScoreRequest p o).radar.originality ≤ 1)
    ∧ (0 ≤ (mockScoreRequest p o).radar.clarity ∧ (mockScoreRequest p o).radar.clarity ≤ 1)
    ∧ (0 ≤ (mockScoreRequest p o).radar.audience_appeal
        ∧ (mockScoreRequest p o).radar.audience_appeal ≤ 1)
    ∧ (0 ≤ (mockScoreRequest p o).radar.budget_feasibility
        ∧ (mockScoreRequest p o).radar.budget_feasibility ≤ 1)
    ∧ (0 ≤ (mockScoreRequest p o).radar.production_risk
        ∧ (mockScoreRequest p o).radar.production_risk ≤ 119/100)
    ∧ ((mockScoreRequest p o).nearest_movies).Forall
        (fun e => 13/50 ≤ e.similarity ∧ e.similarity ≤ 19/20) :=
  ⟨⟨p_success_ge p o, p_success_le p o⟩,
   ⟨originality_nonneg p o, originality_le_one p o⟩,
   ⟨clarity_nonneg p o, clarity_le_one p o⟩,
   ⟨audience_nonneg p o, audience_le_one p o⟩,
   ⟨budgetFeasibility_nonneg p o, budgetFeasibility_le_one p o⟩,
   ⟨productionRisk_nonneg p o, productionRisk_le p o⟩,
   sims_similarity_bounds p o⟩

/-- Claim C2: the score derivation is a pure function of the request;
two invocations on identical (text, options) pairs produce identical
responses in every field, with no hidden state and no clock in the
numeric outputs. -/
theorem C2_deterministic (p1 : Str) (o1 : Options) (p2 : Str) (o2 : Options)
    (hp : p1 = p2) (ho : o1 = o2) :
    mockScoreRequest p1 o1 = mockScoreRequest p2 o2 := by
  subst hp
  subst ho
  rfl

theorem C2_witness : mockScoreRequest [] oScenario = mockScoreRequest [] oScenario :=
  C2_deterministic [] oScenario [] oScenario rfl rfl

/-- Claim C8: with no budget hint, the resolved budget is 40,000,000 when
the text matches the epic/spectacle trigger pattern and 8,000,000
otherwise. -/
theorem C8_budget_default (p : Str) (o : Options) (h : o.budget_hint_usd = none) :
    resolvedBudget p o = if jsTest epicPats p then 40000000 else 8000000 := by
  unfold resolvedBudget
  rw [h]
  rfl

theorem C8_witness :
    resolvedBudget (("guerra").data) oScenario = 40000000
    ∧ resolvedBudget [] oScenario = 8000000 := by
  constructor
  · rw [C8_budget_default (("guerra").data) oScenario rfl, if_pos (by decide)]
  · rw [C8_budget_default [] oScenario rfl, if_neg (by decide)]

/-- Claim C9 (amended): keyword matching is case-insensitive — any two
texts with the same case-folding infer the same category sequence.
(Accent-insensitivity fails; see the counterexample.) -/
theorem C9_amended_case_insensitive (t t' : Str) (h : lowerStr t = lowerStr t') :
    pickGenresFromText t = pickGenresFromText t' := by
  unfold pickGenresFromText
  rw [h]

theorem C9_witness :
    pickGenresFromText (("MISIÓN").data) = pickGenresFromText (("misión").data) :=
  C9_amended_case_insensitive (("MISIÓN").data) (("misión").data) (by decide)

/-- Claim C9 counterexample: the accented and unaccented spellings of a
trigger word do not match the same patterns — "misión" infers Acción
while "mision" infers nothing. -/
theorem C9_counterexample :
    pickGenresFromText (("misión").data) = [gAccion]
    ∧ pickGenresFromText (("mision").data) = [] :=
  ⟨by decide, by decide⟩

/-- Claim C4 (amended): a blank budget field is coerced to an absent hint
before the engine is invoked, and the engine falls back to the
text-derived default only when the hint is absent; any present value —
including a negative one — is used as-is in the arithmetic. -/
theorem C4_amended (s : Str) (v : ℚ) (p : Str) (o : Options) (b : ℚ) :
    submitBudget [] v = none
    ∧ (s ≠ [] → submitBudget s v = some v)
    ∧ (o.budget_hint_usd = some b → resolvedBudget p o = b) := by
  refine ⟨rfl, ?_, ?_⟩
  · intro h
    unfold submitBudget
    rw [if_neg h]
  · intro h
    unfold resolvedBudget
    rw [h]
    rfl

theorem C4_witness :
    submitBudget [] 5 = none
    ∧ submitBudget (['1']) 5 = some 5
    ∧ resolvedBudget [] oNegBudget = -5 :=
  ⟨(C4_amended (['1']) 5 [] oNegBudget (-5)).1,
   (C4_amended (['1']) 5 [] oNegBudget (-5)).2.1 (by decide),
   (C4_amended (['1']) 5 [] oNegBudget (-5)).2.2 rfl⟩

/-- Claim C4 counterexample: a negative budget hint is NOT treated as
absent — the engine resolves it to the hinted value (-5), not to the
8,000,000 default, and the negative value flows into the feasibility
arithmetic, changing the result. -/
theorem C4_counterexample :
    resolvedBudget [] oNegBudget = -5
    ∧ resolvedBudget [] oScenario = 8000000
    ∧ budgetFeasibility [] oNegBudget ≠ budgetFeasibility [] oScenario := by
  refine ⟨rfl, rfl, ?_⟩
  have hB : budgetFeasibility [] oScenario = 1 := by
    unfold budgetFeasibility
    rw [show resolvedBudget [] oScenario = 8000000 from rfl,
        show budgetPeer [] oScenario = 8000000 from rfl]
    norm_num
  have hA : budgetFeasibility [] oNegBudget < 1 := by
    unfold budgetFeasibility
    rw [show resolvedBudget [] oNegBudget = -5 from rfl,
        show budgetPeer [] oNegBudget = 8000000 from rfl]
    have habs : |(-5 : ℚ) - 8000000| = 8000005 := by
      rw [abs_of_nonpos (by norm_num)]
      norm_num
    rw [habs]
    have hmax : max (1 : ℚ) (8000000 * 2) = 16000000 := by
      rw [max_eq_right (by norm_num)]
      norm_num
    rw [hmax]
    have hX : (1 : ℚ) - 8000005 / 16000000 < 1 := by norm_num
    have hX0 : (0 : ℚ) ≤ 1 - 8000005 / 16000000 := by norm_num
    rw [min_eq_right (le_of_lt hX), max_eq_right hX0]
    exact hX
  rw [hB]
  exact ne_of_lt hA

/-! ## Numeric bounds for tanh(2/3), needed for the base term at text
length 0 -/

theorem exp_inv24_le : Real.exp (1/24) ≤ 24/23 := by
  have h1 : (-(1/24) : ℝ) + 1 ≤ Real.exp (-(1/24)) := Real.add_one_le_exp _
  have h2 : (23/24 : ℝ) ≤ Real.exp (-(1/24)) := by linarith
  rw [Real.exp_neg] at h2
  have h3 : (0:ℝ) < Real.exp (1/24) := Real.exp_pos _
  have h5 : Real.exp (1/24) * (Real.exp (1/24))⁻¹ = 1 := mul_inv_cancel₀ (ne_of_gt h3)
  have h6 : Real.exp (1/24) * (23/24) ≤ Real.exp (1/24) * (Real.exp (1/24))⁻¹ :=
    mul_le_mul_of_nonneg_left h2 (le_of_lt h3)
  rw [h5] at h6
  linarith

theorem exp_43_lt : Real.exp (4/3) < 4 := by
  have h1 : Real.exp (((32:ℕ) : ℝ) * ((1:ℝ)/24)) = Real.exp (1/24) ^ (32:ℕ) :=
    Real.exp_nat_mul _ _
  have h0 : (((32:ℕ) : ℝ)) * ((1:ℝ)/24) = 4/3 := by norm_num
  have h2 : Real.exp (1/24) ^ (32:ℕ) ≤ (24/23 : ℝ) ^ (32:ℕ) :=
    pow_le_pow_left₀ (le_of_lt (Real.exp_pos _)) exp_inv24_le 32
  have h3 : ((24/23 : ℝ)) ^ (32:ℕ) < 4 := by norm_num
  calc Real.exp (4/3) = Real.exp (1/24) ^ (32:ℕ) := by rw [← h1, h0]
  _ ≤ (24/23:ℝ) ^ (32:ℕ) := h2
  _ < 4 := h3

theorem tanh23_pos : 0 < Real.tanh (2/3) := by
  rw [Real.tanh_eq_sinh_div_cosh]
  exact div_pos (Real.sinh_pos_iff.mpr (by norm_num)) (Real.cosh_pos _)

theorem tanh23_lt : Real.tanh (2/3) < 3/5 := by
  have ha : (0:ℝ) < Real.exp (2/3) := Real.exp_pos _
  have hsq : Real.exp (2/3) * Real.exp (2/3) < 4 := by
    rw [← Real.exp_add]
    have h23 : (2/3 : ℝ) + 2/3 = 4/3 := by norm_num
    rw [h23]
    exact exp_43_lt
  have hinv : Real.exp (2/3) * (Real.exp (2/3))⁻¹ = 1 := mul_inv_cancel₀ (ne_of_gt ha)
  have hinvpos : (0:ℝ) < (Real.exp (2/3))⁻¹ := inv_pos.mpr ha
  rw [Real.tanh_eq_sinh_div_cosh, Real.sinh_eq, Real.cosh_eq, Real.exp_neg]
  have hden : (0:ℝ) < (Real.exp (2/3) + (Real.exp (2/3))⁻¹)/2 := by positivity
  rw [div_lt_iff₀ hden]
  nlinarith [hsq, hinv, ha, hinvpos]

/-- Evaluating the base formula at text length 0: it lies strictly
between 0.5 and 0.65 (its value is about 0.504). -/
theorem base_zero_bounds : 1/2 < base 0 ∧ base 0 < 13/20 := by
  unfold base
  have harg : ((((0:ℕ)) : ℝ) - 400) / 600 = -(2/3) := by norm_num
  rw [harg, Real.tanh_neg]
  have h1 := tanh23_lt
  have h2 := tanh23_pos
  have hinner_lt : (0.4 : ℝ) + (-Real.tanh (2/3) + 1) * 0.25 < 13/20 := by nlinarith
  have hinner_gt : (1/2 : ℝ) < 0.4 + (-Real.tanh (2/3) + 1) * 0.25 := by nlinarith
  constructor
  · rw [min_eq_left (by linarith : (0.4:ℝ) + (-Real.tanh (2/3) + 1) * 0.25 ≤ 0.95)]
    exact hinner_gt
  · exact lt_of_le_of_lt (min_le_left _ _) hinner_lt

/-- Claim C3 counterexample: at text length 0 the base term of the
formula is NOT approximately 0.4167 — it differs from 0.4167 by more
than 0.05 (the true value is about 0.504). -/
theorem C3_counterexample : 1/20 < |base 0 - 4167/10000| := by
  have h := base_zero_bounds.1
  have h2 : (1/20 : ℝ) < base 0 - 4167/10000 := by linarith
  exact lt_of_lt_of_le h2 (le_abs_self _)

/-! ## The signed slices at the concrete requests

The scenario hash is 3127839277, at least 2^31, so ToInt32 makes it
-1167128019 and every shifted slice is negative: the real similarities
at the scenario are 0.26 to 0.53 — all below the 0.6 the spec claims —
and clarity is 0.5 - 1/150. -/

theorem mem_enumFrom_lt {α : Type _} (l : List α) :
    ∀ (n : ℕ) (x : ℕ × α), x ∈ l.enumFrom n → x.1 < n + l.length := by
  induction l with
  | nil =>
    intro n x hx
    simp [List.enumFrom] at hx
  | cons a t ih =>
    intro n x hx
    rw [show (a :: t).enumFrom n = (n, a) :: t.enumFrom (n + 1) from rfl] at hx
    rcases List.mem_cons.mp hx with rfl | hxt
    · show n < n + (t.length + 1)
      omega
    · have h := ih (n + 1) x hxt
      show x.1 < n + (t.length + 1)
      omega

theorem mem_enum_lt {α : Type _} (l : List α) (x : ℕ × α) (hx : x ∈ l.enum) :
    x.1 < l.length := by
  have hx' : x ∈ l.enumFrom 0 := hx
  have h := mem_enumFrom_lt l 0 x hx'
  omega

/-- At the scenario request every similarity is strictly below 0.6: the
signed slices at shifts 1..10 are -15, -25, -13, -7, -21, -11, -23, -29,
-32, -34, so the ten candidate similarities are 0.45, 0.35, 0.47, 0.53,
0.39, 0.49, 0.37, 0.31, 0.28, 0.26. -/
theorem scenario_sims_lt :
    ((mockScoreRequest [] oScenario).nearest_movies).Forall
      (fun e => e.similarity < 3/5) := by
  show (sims [] oScenario).Forall _
  rw [List.forall_iff_forall_mem]
  intro e he
  unfold sims at he
  have h1 := List.mem_of_mem_take he
  have h2 := (mem_stableSort _ _ _).mp h1
  unfold simsPre at h2
  rcases List.mem_map.mp h2 with ⟨x, hx, rfl⟩
  have hi : x.1 < 10 := by
    have h := mem_enum_lt pool x hx
    have hl : pool.length = 10 := rfl
    omega
  show simVal (hVal [] oScenario) x.1 < 3/5
  rw [show hVal [] oScenario = 3127839277 from by decide]
  rcases x with ⟨i, m⟩
  show simVal 3127839277 i < 3/5
  have hi' : i < 10 := hi
  interval_cases i
  · rw [simVal_eq, show jsMod (shr 3127839277 (0 + 1)) 35 = (-15 : ℤ) from by decide]
    norm_num
  · rw [simVal_eq, show jsMod (shr 3127839277 (1 + 1)) 35 = (-25 : ℤ) from by decide]
    norm_num
  · rw [simVal_eq, show jsMod (shr 3127839277 (2 + 1)) 35 = (-13 : ℤ) from by decide]
    norm_num
  · rw [simVal_eq, show jsMod (shr 3127839277 (3 + 1)) 35 = (-7 : ℤ) from by decide]
    norm_num
  · rw [simVal_eq, show jsMod (shr 3127839277 (4 + 1)) 35 = (-21 : ℤ) from by decide]
    norm_num
  · rw [simVal_eq, show jsMod (shr 3127839277 (5 + 1)) 35 = (-11 : ℤ) from by decide]
    norm_num
  · rw [simVal_eq, show jsMod (shr 3127839277 (6 + 1)) 35 = (-23 : ℤ) from by decide]
    norm_num
  · rw [simVal_eq, show jsMod (shr 3127839277 (7 + 1)) 35 = (-29 : ℤ) from by decide]
    norm_num
  · rw [simVal_eq, show jsMod (shr 3127839277 (8 + 1)) 35 = (-32 : ℤ) from by decide]
    norm_num
  · rw [simVal_eq, show jsMod (shr 3127839277 (9 + 1)) 35 = (-34 : ℤ) from by decide]
    norm_num

/-- Claim C1 counterexample: the numeric bounds fail on the program.
At the scenario request every similarity lies below 0.6 (the claimed
lower bound), refuting the similarity conjunct; and at the large-budget
request the production-risk axis equals 109/100 > 1, refuting the radar
[0,1] conjunct — the code clamps production risk below but not above,
and the signed hash slice is negative. -/
theorem C1_counterexample :
    ¬ (((mockScoreRequest [] oScenario).nearest_movies).Forall
        (fun e => 3/5 ≤ e.similarity ∧ e.similarity ≤ 19/20))
    ∧ 1 < (mockScoreRequest [] oBigBudget).radar.production_risk := by
  constructor
  · intro hF
    have hlen : (sims [] oScenario).length = 5 := by
      unfold sims
      rw [List.length_take, length_stableSort]
      unfold simsPre
      rw [List.length_map, List.enum_length]
      rfl
    have hne : sims [] oScenario ≠ [] := by
      intro hnil
      rw [hnil] at hlen
      simp at hlen
    obtain ⟨e, he⟩ := List.exists_mem_of_ne_nil _ hne
    have hlt := (List.forall_iff_forall_mem.mp scenario_sims_lt) e he
    have hge := ((List.forall_iff_forall_mem.mp hF) e he).1
    linarith
  · show 1 < productionRisk [] oBigBudget
    have hbf : budgetFeasibility [] oBigBudget = 0 := by
      unfold budgetFeasibility
      rw [show resolvedBudget [] oBigBudget = 25000000 from rfl,
          show budgetPeer [] oBigBudget = 8000000 from rfl]
      have habs : |(25000000 : ℚ) - 8000000| = 17000000 := by
        rw [abs_of_nonneg (by norm_num)]
        norm_num
      rw [habs]
      have hmax : max (1 : ℚ) (8000000 * 2) = 16000000 := by
        rw [max_eq_right (by norm_num)]
        norm_num
      rw [hmax]
      have h1 : (1 : ℚ) - 17000000 / 16000000 ≤ 0 := by norm_num
      rw [min_eq_right (by linarith : (1:ℚ) - 17000000/16000000 ≤ 1), max_eq_left h1]
    unfold productionRisk
    rw [show hVal [] oBigBudget = 3821752128 from by decide, hbf,
        show jsMod (shr 3821752128 9) 20 = (-9 : ℤ) from by decide]
    norm_num [max_def]

/-- Claim C1 (amended): for every request, successProbability lies in
[0.05, 0.95]; originality, clarity, audienceAppeal and budgetFeasibility
lie in [0, 1]; productionRisk lies in [0, 1.19] (it has no upper clamp
and can exceed 1); and every similarity lies in [0.26, 0.95] (the signed
hash slice drives similarities below the claimed 0.6). -/
theorem C1_amended_bounds (p : Str) (o : Options) :
    (0.05 ≤ (mockScoreRequest p o).p_success ∧ (mockScoreRequest p o).p_success ≤ 0.95)
    ∧ (0 ≤ (mockScoreRequest p o).radar.originality
        ∧ (mockScoreRequest p o).radar.originality ≤ 1)
    ∧ (0 ≤ (mockScoreRequest p o).radar.clarity ∧ (mockScoreRequest p o).radar.clarity ≤ 1)
    ∧ (0 ≤ (mockScoreRequest p o).radar.audience_appeal
        ∧ (mockScoreRequest p o).radar.audience_appeal ≤ 1)
    ∧ (0 ≤ (mockScoreRequest p o).radar.budget_feasibility
        ∧ (mockScoreRequest p o).radar.budget_feasibility ≤ 1)
    ∧ (0 ≤ (mockScoreRequest p o).radar.production_risk
        ∧ (mockScoreRequest p o).radar.production_risk ≤ 119/100)
    ∧ ((mockScoreRequest p o).nearest_movies).Forall
        (fun e => 13/50 ≤ e.similarity ∧ e.similarity ≤ 19/20) :=
  response_bounds p o

/-- Claim C10 counterexample: clarity is NOT bounded below by 1/2 — at
the scenario request the signed slice is -1 and clarity equals
1/2 - 1/150 = 37/75 < 1/2. -/
theorem C10_counterexample :
    (mockScoreRequest [] oScenario).radar.clarity = 37/75
    ∧ (37/75 : ℚ) < 1/2 := by
  constructor
  · show clarity [] oScenario = 37/75
    unfold clarity
    rw [show hVal [] oScenario = 3127839277 from by decide,
        show jsMod (shr 3127839277 5) 50 = (-1 : ℤ) from by decide]
    norm_num [max_def, min_def]
  · norm_num

/-- Claim C10 (amended): clarity always equals its unclamped expression
(the [0,1] clamp never binds), but the signed slice ranges over
-49..49, so clarity lies in [1/2 - 49/150, 1/2 + 49/150] and can fall
below 1/2. -/
theorem C10_amended_clarity (p : Str) (o : Options) :
    (mockScoreRequest p o).radar.clarity
      = 0.5 + ((jsMod (shr (hVal p o) 5) 50 : ℤ) : ℚ) / 150
    ∧ 1/2 - 49/150 ≤ (mockScoreRequest p o).radar.clarity
    ∧ (mockScoreRequest p o).radar.clarity ≤ 1/2 + 49/150 := by
  have hb := jsMod_bounds (shr (hVal p o) 5) 50 (by norm_num)
  have h1 : (-49 : ℤ) ≤ jsMod (shr (hVal p o) 5) 50 := by omega
  have h2 : jsMod (shr (hVal p o) 5) 50 ≤ 49 := by omega
  have hq1 : (-49 : ℚ) ≤ ((jsMod (shr (hVal p o) 5) 50 : ℤ) : ℚ) := by exact_mod_cast h1
  have hq2 : ((jsMod (shr (hVal p o) 5) 50 : ℤ) : ℚ) ≤ 49 := by exact_mod_cast h2
  have hinner1 : (0.5 : ℚ) + ((jsMod (shr (hVal p o) 5) 50 : ℤ) : ℚ) / 150 ≤ 1 := by
    linarith
  have hinner0 : (0 : ℚ) ≤ 0.5 + ((jsMod (shr (hVal p o) 5) 50 : ℤ) : ℚ) / 150 := by
    linarith
  have heq : (mockScoreRequest p o).radar.clarity
      = 0.5 + ((jsMod (shr (hVal p o) 5) 50 : ℤ) : ℚ) / 150 := by
    show clarity p o = _
    unfold clarity
    rw [min_eq_right hinner1, max_eq_right hinner0]
  refine ⟨heq, ?_, ?_⟩
  · rw [heq]
    linarith
  · rw [heq]
    linarith

/-- Claim C3 (amended): for the request with empty text, no genres,
rating PG-13 and no budget hint, the effective genres resolve to
["Drama"], the resolved budget is 8,000,000, the base term at text
length 0 lies in (0.5, 0.65) (about 0.504, not 0.4167), and the response
satisfies the bounds the code actually guarantees — successProbability
in [0.05, 0.95], originality/clarity/audienceAppeal/budgetFeasibility in
[0, 1], productionRisk in [0, 1.19], similarities in [0.26, 0.95]; at
this request all five similarities in fact lie below 0.6. -/
theorem C3_amended_scenario :
    genresEff [] oScenario = [gDrama]
    ∧ resolvedBudget [] oScenario = 8000000
    ∧ (1/2 < base 0 ∧ base 0 < 13/20)
    ∧ ((0.05 ≤ (mockScoreRequest [] oScenario).p_success
        ∧ (mockScoreRequest [] oScenario).p_success ≤ 0.95)
      ∧ (0 ≤ (mockScoreRequest [] oScenario).radar.originality
          ∧ (mockScoreRequest [] oScenario).radar.originality ≤ 1)
      ∧ (0 ≤ (mockScoreRequest [] oScenario).radar.clarity
          ∧ (mockScoreRequest [] oScenario).radar.clarity ≤ 1)
      ∧ (0 ≤ (mockScoreRequest [] oScenario).radar.audience_appeal
          ∧ (mockScoreRequest [] oScenario).radar.audience_appeal ≤ 1)
      ∧ (0 ≤ (mockScoreRequest [] oScenario).radar.budget_feasibility
          ∧ (mockScoreRequest [] oScenario).radar.budget_feasibility ≤ 1)
      ∧ (0 ≤ (mockScoreRequest [] oScenario).radar.production_risk
          ∧ (mockScoreRequest [] oScenario).radar.production_risk ≤ 119/100)
      ∧ ((mockScoreRequest [] oScenario).nearest_movies).Forall
          (fun e => 13/50 ≤ e.similarity ∧ e.similarity ≤ 19/20))
    ∧ ((mockScoreRequest [] oScenario).nearest_movies).Forall
        (fun e => e.similarity < 3/5) :=
  ⟨by decide, rfl, base_zero_bounds, response_bounds [] oScenario, scenario_sims_lt⟩

/-! ## Nearest movies (C5) -/

/-- Position of a title in a list of titles (first occurrence). -/
def idxIn (x : Str) : List Str → ℕ
  | [] => 0
  | y :: t => if y = x then 0 else 1 + idxIn x t

/-- Position of a title in the fixed reference pool. -/
def poolOrd (t : Str) : ℕ := idxIn t (pool.map Movie.title)

theorem simsPre_pairwise_poolOrd (p : Str) (o : Options) :
    (simsPre p o).Pairwise (fun a b => poolOrd a.title < poolOrd b.title) := by
  unfold simsPre
  rw [List.pairwise_map]
  show pool.enum.Pairwise (fun a b => poolOrd a.2.title < poolOrd b.2.title)
  decide

/-- Claim C5: nearestItems always has exactly 5 entries, each drawn
unchanged (title, year, optional return multiple) from the fixed 10-title
pool, sorted by non-increasing similarity with ties broken by original
pool order. -/
theorem C5_nearest_movies (p : Str) (o : Options) :
    (sims p o).length = 5
    ∧ (sims p o).Forall
        (fun e => ∃ m, m ∈ pool ∧ e.title = m.title ∧ e.year = m.year ∧ e.roi = m.roi)
    ∧ (sims p o).Pairwise (fun a b => b.similarity < a.similarity
        ∨ (a.similarity = b.similarity ∧ poolOrd a.title < poolOrd b.title)) := by
  refine ⟨?_, ?_, ?_⟩
  · unfold sims
    rw [List.length_take, length_stableSort]
    unfold simsPre
    rw [List.length_map, List.enum_length]
    rfl
  · rw [List.forall_iff_forall_mem]
    intro e he
    unfold sims at he
    have h1 := List.mem_of_mem_take he
    have h2 := (mem_stableSort _ _ _).mp h1
    unfold simsPre at h2
    rcases List.mem_map.mp h2 with ⟨x, hx, rfl⟩
    refine ⟨x.2, ?_, rfl, rfl, rfl⟩
    have hsnd := List.enum_map_snd pool
    rw [← hsnd]
    exact List.mem_map_of_mem Prod.snd hx
  · have hTot : ∀ x y : NearMovie,
        (decide (y.similarity ≤ x.similarity)) = true
        ∨ (decide (x.similarity ≤ y.similarity)) = true := by
      intro x y
      rcases le_total y.similarity x.similarity with h | h
      · exact Or.inl (decide_eq_true h)
      · exact Or.inr (decide_eq_true h)
    have hTr : ∀ x y z : NearMovie,
        decide (y.similarity ≤ x.similarity) = true →
        decide (z.similarity ≤ y.similarity) = true →
        decide (z.similarity ≤ x.similarity) = true := by
      intro x y z h1 h2
      exact decide_eq_true (le_trans (of_decide_eq_true h2) (of_decide_eq_true h1))
    have hs := pairwise_stableSort
      (fun a b : NearMovie => decide (b.similarity ≤ a.similarity))
      (fun a b : NearMovie => poolOrd a.title < poolOrd b.title) hTot hTr _
      (simsPre_pairwise_poolOrd p o)
    unfold sims
    refine List.Pairwise.imp ?_ (List.Pairwise.sublist (List.take_sublist _ _) hs)
    rintro a b ⟨h1, h2⟩
    have hba : b.similarity ≤ a.similarity := of_decide_eq_true h1
    by_cases hab : a.similarity ≤ b.similarity
    · exact Or.inr ⟨le_antisymm hab hba, h2 (decide_eq_true hab)⟩
    · exact Or.inl (lt_of_le_not_le hba hab)

/-! ## Drivers (C6) -/

/-- Claim C6 (amended): drivers has exactly five entries — the joined
genre label and the four fixed feature labels — whose impact values equal
the weighted terms of the success formula rounded to three decimals by
toFixed(3) (the production-risk term rounded and then negated), sorted by
non-increasing absolute impact. -/
theorem C6_amended_drivers (p : Str) (o : Options) :
    (drivers p o).length = 5
    ∧ (drivers p o).Perm
        [⟨List.intercalate (['+']) (genresEff p o), toFixedQ 3 (genreAdj p o)⟩,
         ⟨("originality_index").data, toFixedQ 3 ((originality p o - 0.5) * 0.15)⟩,
         ⟨("audience_appeal").data, toFixedQ 3 ((audience p o - 0.5) * 0.12)⟩,
         ⟨("budget_vs_peers").data, toFixedQ 3 ((budgetFeasibility p o - 0.5) * 0.18)⟩,
         ⟨("production_risk").data, -(toFixedQ 3 ((productionRisk p o - 0.5) * 0.15))⟩]
    ∧ (drivers p o).Pairwise (fun a b => |b.impact| ≤ |a.impact|) := by
  have hperm : (drivers p o).Perm (driversPre p o) := stableSort_perm _ _
  refine ⟨?_, hperm, ?_⟩
  · rw [hperm.length_eq]
    rfl
  · have hTot : ∀ x y : Driver,
        (decide (|y.impact| ≤ |x.impact|)) = true
        ∨ (decide (|x.impact| ≤ |y.impact|)) = true := by
      intro x y
      rcases le_total (|y.impact|) (|x.impact|) with h | h
      · exact Or.inl (decide_eq_true h)
      · exact Or.inr (decide_eq_true h)
    have hTr : ∀ x y z : Driver,
        decide (|y.impact| ≤ |x.impact|) = true →
        decide (|z.impact| ≤ |y.impact|) = true →
        decide (|z.impact| ≤ |x.impact|) = true := by
      intro x y z h1 h2
      exact decide_eq_true (le_trans (of_decide_eq_true h2) (of_decide_eq_true h1))
    exact (sorted_stableSort _ hTot hTr _).imp (fun h => of_decide_eq_true h)

theorem thousandth_ne_exact (n : ℤ) : ((n : ℚ)) / 1000 ≠ 9/5000 := by
  intro h
  have h3 : ((5 * n : ℤ) : ℚ) = 9 := by
    push_cast
    linarith
  have h4 : (5 * n : ℤ) = 9 := by exact_mod_cast h3
  omega

theorem toFixedQ3_ne (x : ℚ) : toFixedQ 3 x ≠ 9/5000 := by
  unfold toFixedQ
  have h10 : ((10 : ℚ)) ^ (3 : ℕ) = 1000 := by norm_num
  rw [h10]
  exact thousandth_ne_exact _

theorem neg_toFixedQ3_ne (x : ℚ) : -(toFixedQ 3 x) ≠ 9/5000 := by
  intro h
  apply thousandth_ne_exact (-⌊x * (10 : ℚ) ^ (3 : ℕ) + 1/2⌋)
  unfold toFixedQ at h
  have h10 : ((10 : ℚ)) ^ (3 : ℕ) = 1000 := by norm_num
  rw [h10] at h ⊢
  push_cast
  linarith

theorem originality_scenario : originality [] oScenario = 64/125 := by
  have hh : hVal [] oScenario = 3127839277 := by decide
  have hg : genresEff [] oScenario = [gDrama] := by decide
  have hd : (([gDrama]).dedup).length = 1 := by decide
  rw [originality, hh, hg, hd]
  norm_num [max_def, min_def]

/-- Claim C6 counterexample: at the empty-text scenario request, no
driver's impact equals the exact originality weighted term
(originality - 0.5) * 0.15 — the stored impacts are rounded to three
decimals (here 0.002 versus the exact 0.0018). -/
theorem C6_counterexample :
    ¬ ∃ d ∈ drivers [] oScenario,
      d.impact = (originality [] oScenario - 1/2) * (15/100) := by
  rintro ⟨d, hd, he⟩
  rw [originality_scenario] at he
  have he' : d.impact = 9/5000 := by
    rw [he]
    norm_num
  have hmem : d ∈ driversPre [] oScenario := by
    unfold drivers at hd
    exact (mem_stableSort _ _ _).mp hd
  unfold driversPre at hmem
  simp only [List.mem_cons, List.not_mem_nil, or_false] at hmem
  rcases hmem with rfl | rfl | rfl | rfl | rfl
  · exact toFixedQ3_ne _ he'
  · exact toFixedQ3_ne _ he'
  · exact toFixedQ3_ne _ he'
  · exact toFixedQ3_ne _ he'
  · exact neg_toFixedQ3_ne _ he'

/-! ## Category inference (C7) -/

/-- Aggregate match count of a category: the counts of all table entries
carrying that category, summed. -/
def aggCount (t : Str) (g : Str) : ℕ :=
  ((KEYMAP.filter (fun e => decide (e.2 = g))).map
    (fun e => countMatches e.1 (lowerStr t))).sum

/-- First-occurrence position of a category in the keyword table. -/
def tableIdx (g : Str) : ℕ := idxIn g (KEYMAP.map Prod.snd)

theorem upsert_of_not_mem (g : Str) (c : ℕ) (acc : List (Str × ℕ))
    (h : ∀ q ∈ acc, q.1 ≠ g) : upsert g c acc = acc ++ [(g, c)] := by
  induction acc with
  | nil => rfl
  | cons a t ih =>
    unfold upsert
    rw [if_neg (h a (List.mem_cons_self _ _)),
        ih (fun q hq => h q (List.mem_cons_of_mem _ hq))]
    simp

theorem foldl_pick_eq (lt : Str) (l : List (List Str × Str)) :
    ∀ acc : List (Str × ℕ),
      (∀ q ∈ acc, ∀ e ∈ l, q.1 ≠ e.2) →
      ((l.map Prod.snd).Nodup) →
      l.foldl
        (fun acc e =>
          if 0 < countMatches e.1 lt then upsert e.2 (countMatches e.1 lt) acc else acc) acc
      = acc ++ (l.filter (fun e => decide (0 < countMatches e.1 lt))).map
          (fun e => (e.2, countMatches e.1 lt)) := by
  induction l with
  | nil =>
    intro acc _ _
    simp
  | cons e l ih =>
    intro acc hdis hnd
    have hnd1 : e.2 ∉ l.map Prod.snd := (List.nodup_cons.mp hnd).1
    have hnd2 : (l.map Prod.snd).Nodup := (List.nodup_cons.mp hnd).2
    simp only [List.foldl_cons]
    by_cases hc : 0 < countMatches e.1 lt
    · rw [if_pos hc,
        upsert_of_not_mem e.2 (countMatches e.1 lt) acc
          (fun q hq => hdis q hq e (List.mem_cons_self _ _))]
      rw [ih (acc ++ [(e.2, countMatches e.1 lt)]) ?_ hnd2]
      · simp [List.filter_cons, hc]
      · intro q hq e' he'
        rcases List.mem_append.mp hq with hqa | hqe
        · exact hdis q hqa e' (List.mem_cons_of_mem _ he')
        · have hq2 : q = (e.2, countMatches e.1 lt) := by simpa using hqe
          subst hq2
          intro hcontra
          apply hnd1
          have hcontra2 : e.2 = e'.2 := hcontra
          exact hcontra2 ▸ List.mem_map_of_mem Prod.snd he'
    · rw [if_neg hc, ih acc (fun q hq e' he' => hdis q hq e' (List.mem_cons_of_mem _ he')) hnd2]
      simp [List.filter_cons, hc]

theorem pickEntriesL_eq (lt : Str) :
    pickEntriesL lt
      = (KEYMAP.filter (fun e => decide (0 < countMatches e.1 lt))).map
          (fun e => (e.2, countMatches e.1 lt)) := by
  have h := foldl_pick_eq lt KEYMAP [] (by simp) (by decide)
  simpa [pickEntriesL] using h

theorem filter_snd_nodup {l : List (List Str × Str)} (hnd : (l.map Prod.snd).Nodup)
    {e : List Str × Str} (he : e ∈ l) :
    l.filter (fun x => decide (x.2 = e.2)) = [e] := by
  induction l with
  | nil => cases he
  | cons a t ih =>
    rcases List.mem_cons.mp he with rfl | ht
    · have hnot : e.2 ∉ t.map Prod.snd := (List.nodup_cons.mp hnd).1
      have hnr : t.filter (fun x => decide (x.2 = e.2)) = [] := by
        refine List.filter_eq_nil_iff.mpr ?_
        intro x hx
        simp only [decide_eq_true_eq]
        intro hax
        exact hnot (hax ▸ List.mem_map_of_mem Prod.snd hx)
      simp [List.filter_cons, hnr]
    · have hne : ¬ (a.2 = e.2) := by
        intro hcontra
        exact (List.nodup_cons.mp hnd).1 (hcontra ▸ List.mem_map_of_mem Prod.snd ht)
      rw [List.filter_cons_of_neg (by simpa using hne)]
      exact ih (List.nodup_cons.mp hnd).2 ht

theorem aggCount_eq_of_mem (t : Str) (e : List Str × Str) (he : e ∈ KEYMAP) :
    aggCount t e.2 = countMatches e.1 (lowerStr t) := by
  unfold aggCount
  rw [filter_snd_nodup (by decide) he]
  simp

theorem entry_count (t : Str) (pr : Str × ℕ) (h : pr ∈ pickEntriesL (lowerStr t)) :
    pr.2 = aggCount t pr.1 := by
  rw [pickEntriesL_eq] at h
  rcases List.mem_map.mp h with ⟨e, hef, rfl⟩
  rcases List.mem_filter.mp hef with ⟨heK, _⟩
  exact (aggCount_eq_of_mem t e heK).symm

theorem sum_map_pos {α : Type _} (f : α → ℕ) (l : List α) (h : 0 < (l.map f).sum) :
    ∃ e ∈ l, 0 < f e := by
  induction l with
  | nil => simp at h
  | cons a t ih =>
    simp only [List.map_cons, List.sum_cons] at h
    by_cases ha : 0 < f a
    · exact ⟨a, List.mem_cons_self _ _, ha⟩
    · have ht : 0 < (t.map f).sum := by omega
      obtain ⟨e, he, hfe⟩ := ih ht
      exact ⟨e, List.mem_cons_of_mem _ he, hfe⟩

theorem mem_pick_iff (t : Str) (g : Str) :
    g ∈ pickGenresFromText t ↔ 0 < aggCount t g := by
  unfold pickGenresFromText
  constructor
  · intro h
    rcases List.mem_map.mp h with ⟨pr, hpr, rfl⟩
    have h2 : pr ∈ pickEntriesL (lowerStr t) := (mem_stableSort _ _ _).mp hpr
    rw [pickEntriesL_eq] at h2
    rcases List.mem_map.mp h2 with ⟨e, hef, rfl⟩
    rcases List.mem_filter.mp hef with ⟨heK, hc⟩
    show 0 < aggCount t e.2
    rw [aggCount_eq_of_mem t e heK]
    exact of_decide_eq_true hc
  · intro h
    unfold aggCount at h
    obtain ⟨e, hef, hpos⟩ := sum_map_pos _ _ h
    rcases List.mem_filter.mp hef with ⟨heK, hg⟩
    have hg' : e.2 = g := of_decide_eq_true hg
    refine List.mem_map.mpr ⟨(e.2, countMatches e.1 (lowerStr t)), ?_, hg'⟩
    refine (mem_stableSort _ _ _).mpr ?_
    rw [pickEntriesL_eq]
    exact List.mem_map_of_mem _ (List.mem_filter.mpr ⟨heK, decide_eq_true hpos⟩)

theorem pick_pairwise (t : Str) :
    (pickGenresFromText t).Pairwise (fun g1 g2 =>
      aggCount t g2 < aggCount t g1
      ∨ (aggCount t g1 = aggCount t g2 ∧ tableIdx g1 < tableIdx g2)) := by
  unfold pickGenresFromText
  rw [List.pairwise_map]
  have hTot : ∀ x y : Str × ℕ,
      (decide (y.2 ≤ x.2)) = true ∨ (decide (x.2 ≤ y.2)) = true := by
    intro x y
    rcases le_total y.2 x.2 with h | h
    · exact Or.inl (decide_eq_true h)
    · exact Or.inr (decide_eq_true h)
  have hTr : ∀ x y z : Str × ℕ,
      decide (y.2 ≤ x.2) = true → decide (z.2 ≤ y.2) = true →
      decide (z.2 ≤ x.2) = true := by
    intro x y z h1 h2
    exact decide_eq_true (le_trans (of_decide_eq_true h2) (of_decide_eq_true h1))
  have hPre : (pickEntriesL (lowerStr t)).Pairwise
      (fun pr1 pr2 => tableIdx pr1.1 < tableIdx pr2.1) := by
    rw [pickEntriesL_eq]
    refine List.Pairwise.map _
      (fun (a b : List Str × Str) (h : tableIdx a.2 < tableIdx b.2) => h) ?_
    refine List.Pairwise.sublist (List.filter_sublist _) ?_
    decide
  have hs := pairwise_stableSort
    (fun a b : Str × ℕ => decide (b.2 ≤ a.2))
    (fun pr1 pr2 : Str × ℕ => tableIdx pr1.1 < tableIdx pr2.1) hTot hTr _ hPre
  refine List.Pairwise.imp_of_mem ?_ hs
  intro pr1 pr2 h1m h2m hR
  rcases hR with ⟨hle, htie⟩
  have hc1 := entry_count t pr1 ((mem_stableSort _ _ _).mp h1m)
  have hc2 := entry_count t pr2 ((mem_stableSort _ _ _).mp h2m)
  have hle' : pr2.2 ≤ pr1.2 := of_decide_eq_true hle
  by_cases heq : pr1.2 ≤ pr2.2
  · refine Or.inr ⟨?_, htie (decide_eq_true heq)⟩
    rw [← hc1, ← hc2]
    exact le_antisymm heq hle'
  · refine Or.inl ?_
    rw [← hc1, ← hc2]
    exact lt_of_le_not_le hle' heq

theorem pick_empty_of_no_match (t : Str)
    (h : ∀ e ∈ KEYMAP, countMatches e.1 (lowerStr t) = 0) :
    pickGenresFromText t = [] := by
  unfold pickGenresFromText
  have hf : KEYMAP.filter (fun e => decide (0 < countMatches e.1 (lowerStr t))) = [] :=
    List.filter_eq_nil_iff.mpr (fun e he => by simp [h e he])
  rw [pickEntriesL_eq, hf]
  rfl

/-- Claim C7: category inference returns exactly the categories with a
positive aggregate match count (counts summed over all table entries of
the category), ordered by strictly decreasing aggregate count with ties
broken by first-occurrence order in the table, and returns the empty
sequence on empty or non-matching text. -/
theorem C7_category_inference (t : Str) :
    (∀ g, g ∈ pickGenresFromText t ↔ 0 < aggCount t g)
    ∧ (pickGenresFromText t).Pairwise (fun g1 g2 =>
        aggCount t g2 < aggCount t g1
        ∨ (aggCount t g1 = aggCount t g2 ∧ tableIdx g1 < tableIdx g2))
    ∧ (t = [] → pickGenresFromText t = [])
    ∧ ((∀ e ∈ KEYMAP, countMatches e.1 (lowerStr t) = 0) → pickGenresFromText t = []) :=
  ⟨mem_pick_iff t, pick_pairwise t,
   fun h => by
     subst h
     decide,
   pick_empty_of_no_match t⟩

theorem C7_witness :
    gDrama ∈ pickGenresFromText (("drama").data)
    ∧ pickGenresFromText (("xyz").data) = [] :=
  ⟨((C7_category_inference (("drama").data)).1 gDrama).mpr (by decide),
   (C7_category_inference (("xyz").data)).2.2.2 (by decide)⟩

end PitchScore
